import Mathlib

/-!
A shallow embedding of the VibeArxivDiff pipeline (`src/app.py`) and proofs
about it.  The program downloads two revisions of an arXiv paper, unpacks
them, locates the main `.tex` file of each, runs `latexdiff`, compiles the
result with `latexmk`, and serves either the produced PDF or a fallback zip
of the working directory.

The embedding models the filesystem as an association list from paths
(lists of components) to byte contents, and models every external effect
(network fetch, tar parsing, directory traversal, the two subprocess tools,
zip compression) as an `Oracles` record supplied to the pipeline.  An event
trace records temp-directory creation, fetches and tool invocations, so that
ordering claims ("the build tool is never invoked") can be stated.
-/

namespace VibeArxivDiff

/-- Filesystem paths, as lists of path components. -/
abbrev Path := List String

/-- Raw file contents, as a list of byte values. -/
abbrev Bytes := List Nat

/-- A filesystem: an association list from paths to contents.  A later
write shadows an earlier entry for the same path (lookups take the first
match). -/
abbrev FS := List (Path × Bytes)

/-- Write (or overwrite) a file. -/
def writeFile (fs : FS) (p : Path) (b : Bytes) : FS := (p, b) :: fs

/-- Read a file: first entry for the path, if any. -/
def readFile (fs : FS) (p : Path) : Option Bytes :=
  (fs.find? (fun q => q.1 == p)).map (fun q => q.2)

/-- `os.path.exists`. -/
def pathExists (fs : FS) (p : Path) : Bool := (readFile fs p).isSome

/-- `os.remove` / the delete half of `shutil.move`. -/
def removeFile (fs : FS) (p : Path) : FS := fs.filter (fun q => q.1 != p)

/-- `p` lies inside directory `d` (component-wise prefix). -/
def isUnder (d p : Path) : Bool := d.isPrefixOf p

/-- The files of `fs` lying inside directory `d`. -/
def filesUnder (fs : FS) (d : Path) : FS := fs.filter (fun q => isUnder d q.1)

/-- Write all archive members (paths relative to `dir`) into `dir`:
`tar.extractall(path=version_dir)`. -/
def extractAll (fs : FS) (dir : Path) (members : List (Path × Bytes)) : FS :=
  members.foldl (fun acc m => writeFile acc (dir ++ m.1) m.2) fs

/-- Remove every file under the directory `tmp`: the recursive deletion
performed by `tempfile.TemporaryDirectory` on scope exit. -/
def cleanup (tmp : Path) (fs : FS) : FS := fs.filter (fun q => !(isUnder tmp q.1))

/-- `shutil.make_archive(base, 'zip', ...)` writes to `str(base) + ".zip"`:
append `".zip"` to the last component. -/
def zipPathOf : Path → Path
  | [] => [".zip"]
  | [c] => [c ++ ".zip"]
  | c :: d :: rest => c :: zipPathOf (d :: rest)

/-- Substring test on character lists (Python's `in` on strings). -/
def containsSub (needle : List Char) : List Char → Bool
  | [] => needle.isEmpty
  | c :: rest => needle.isPrefixOf (c :: rest) || containsSub needle rest

/-- `s.endswith(suf)` (Python), as a suffix test on the character data. -/
def strEndsWith (s suf : String) : Bool := suf.data.isSuffixOf s.data

/-- The document-start marker searched for by the Entry-Point Locator. -/
def marker : String := "\\begin{document}"

/-- `r"\begin{document}" in content`. -/
def containsMarker (content : String) : Bool := containsSub marker.data content.data

/-- The file name of a path: its last component. -/
def fileName (p : Path) : String := p.getLastD ""

/-- `file.endswith(".tex")` on the path's file name. -/
def isTexPath (p : Path) : Bool := strEndsWith (fileName p) ".tex"

/-- The files of `fs` inside `d` whose names end in `.tex`. -/
def texFilesUnder (fs : FS) (d : Path) : FS :=
  (filesUnder fs d).filter (fun q => isTexPath q.1)

/-- Render a path as the string used in error messages (`os.path.join`). -/
def pathString (p : Path) : String := String.intercalate "/" p

/-- One file seen by the Entry-Point Locator's `os.walk` traversal: its
path, and the result of opening it in permissive text mode (`none` when
`open` raises, in which case the file is skipped). -/
structure WalkEntry where
  path : Path
  read : Option String
deriving DecidableEq

/-- The `FileNotFoundError` message raised by `find_main_tex`. -/
def notFoundMsg (directory : String) : String :=
  "Could not find a .tex file with \\begin{document} in " ++ directory

/-- `find_main_tex` (src/app.py lines 32-43): walk the directory; for every
file whose name ends in `.tex`, open it (errors skip the file) and return
the first one containing the document-start marker; raise
`FileNotFoundError` when the traversal finishes with no match.  The
traversal listing (order and open results) is the locator's view of the
directory, supplied as input. -/
def find_main_tex (directory : String) : List WalkEntry → Except String Path
  | [] => .error (notFoundMsg directory)
  | e :: rest =>
    if isTexPath e.path then
      match e.read with
      | some content =>
        if containsMarker content then .ok e.path
        else find_main_tex directory rest
      | none => find_main_tex directory rest
    else find_main_tex directory rest

/-- A walk entry the locator accepts: a `.tex` file that opens successfully
and contains the marker. -/
def entryMatches (e : WalkEntry) : Bool :=
  isTexPath e.path &&
    (match e.read with
     | some content => containsMarker content
     | none => false)

/-- Events observable during one request. -/
inductive Event where
  | mkTempDir
  | fetch (arxiv_id version : String)
  | invokeLatexdiff
  | invokeLatexmk
deriving DecidableEq

/-- Mutable state threaded through the pipeline: the filesystem and the
trace of events so far. -/
structure St where
  fs : FS
  events : List Event
deriving DecidableEq

/-- The exceptions the top-level handler distinguishes. -/
inductive Err where
  | fileNotFound (msg : String)
  | calledProcess
  | other (msg : String)
deriving DecidableEq

/-- What the UI surfaces at the end of a request. -/
inductive Outcome where
  | warning
  | pdf (b : Bytes) (name : String)
  | fallback (zip : Bytes) (name : String) (log : String)
  | errorMsg (msg : String)
deriving DecidableEq

/-- The external world: network, tar library, directory traversal, the two
subprocess tools and zip compression, all opaque to the program. -/
structure Oracles where
  /-- `urllib.request.urlopen`: the bytes served for an id/version pair, or
  a network error. -/
  fetch : String → String → Except String Bytes
  /-- `tarfile.open`/`extractall`: member list on a valid archive, `none`
  for a `tarfile.ReadError`. -/
  tarParse : Bytes → Option (List (Path × Bytes))
  /-- `os.walk` plus `open` on each file, for a given directory. -/
  walk : Path → List WalkEntry
  /-- Exit code of the `latexdiff` subprocess. -/
  latexdiffExit : Nat
  /-- Stdout of `latexdiff`, captured into `diff.tex`. -/
  latexdiffOut : Bytes
  /-- Exit code of the `latexmk` subprocess (never consulted by the code). -/
  latexmkExit : Nat
  /-- Captured stdout of `latexmk` (the error log). -/
  latexmkStdout : String
  /-- Files `latexmk` writes into its working directory. -/
  latexmkFiles : List (Path × Bytes)
  /-- `shutil.make_archive`: zip bytes for a directory's contents. -/
  zipOf : FS → Bytes

/-- `download_and_extract` (src/app.py lines 9-30): fetch the revision's
archive into `extract_to`, then either extract it into
`extract_to/v<version>` and delete the archive, or — on a tar read error —
move the whole byte stream to `v<version>/main.tex`. -/
def download_and_extract (o : Oracles) (arxiv_id version : String) (extract_to : Path)
    (s : St) : Except Err Path × St :=
  let s1 : St := { s with events := s.events ++ [.fetch arxiv_id version] }
  match o.fetch arxiv_id version with
  | .error msg => (.error (.other msg), s1)
  | .ok bytes =>
    let archive_path := extract_to ++ ["v" ++ version ++ ".tar.gz"]
    let fs1 := writeFile s1.fs archive_path bytes
    let version_dir := extract_to ++ ["v" ++ version]
    match o.tarParse bytes with
    | some members =>
      (.ok version_dir, { s1 with fs := removeFile (extractAll fs1 version_dir members) archive_path })
    | none =>
      (.ok version_dir,
        { s1 with fs := writeFile (removeFile fs1 archive_path) (version_dir ++ ["main.tex"]) bytes })

/-- The Renderer and Presenter (src/app.py lines 83-120): run `latexmk`
(its files land in `dir_v2`, its exit code is never inspected), then serve
`diff.pdf`'s bytes if the file exists, else zip the revision directory and
serve that together with the captured build log. -/
def renderAndPresent (o : Oracles) (arxiv_id v1 v2 : String) (dir_v2 : Path)
    (s : St) : Except Err Outcome × St :=
  let s1 : St := { fs := extractAll s.fs dir_v2 o.latexmkFiles,
                   events := s.events ++ [.invokeLatexmk] }
  let final_pdf := dir_v2 ++ ["diff.pdf"]
  if pathExists s1.fs final_pdf then
    (.ok (.pdf ((readFile s1.fs final_pdf).getD [])
         (arxiv_id ++ "_v" ++ v1 ++ "_to_v" ++ v2 ++ "_diff.pdf")), s1)
  else
    let zbytes := o.zipOf (filesUnder s1.fs dir_v2)
    (.ok (.fallback zbytes (arxiv_id ++ "_v" ++ v1 ++ "_to_v" ++ v2 ++ "_source.zip")
         o.latexmkStdout),
     { s1 with fs := writeFile s1.fs (zipPathOf dir_v2) zbytes })

/-- The pipeline body inside the `with tempfile.TemporaryDirectory()` block
(src/app.py lines 64-120): two downloads, two locates, `latexdiff` with
`check=True` (its stdout is written to `diff.tex` before the exit code is
checked), then render-and-present. -/
def runBody (o : Oracles) (temp_dir : Path) (arxiv_id v1 v2 : String)
    (s : St) : Except Err Outcome × St :=
  match download_and_extract o arxiv_id v1 temp_dir s with
  | (.error e, sa) => (.error e, sa)
  | (.ok dir_v1, sa) =>
    match download_and_extract o arxiv_id v2 temp_dir sa with
    | (.error e, sb) => (.error e, sb)
    | (.ok dir_v2, sb) =>
      match find_main_tex (pathString dir_v1) (o.walk dir_v1) with
      | .error msg => (.error (.fileNotFound msg), sb)
      | .ok _tex_v1 =>
        match find_main_tex (pathString dir_v2) (o.walk dir_v2) with
        | .error msg => (.error (.fileNotFound msg), sb)
        | .ok _tex_v2 =>
          let sc : St := { fs := writeFile sb.fs (dir_v2 ++ ["diff.tex"]) o.latexdiffOut,
                           events := sb.events ++ [.invokeLatexdiff] }
          if o.latexdiffExit == 0 then renderAndPresent o arxiv_id v1 v2 dir_v2 sc
          else (.error .calledProcess, sc)

/-- The button handler (src/app.py lines 58-130): guard against empty
inputs, create the working root, run the body, destroy the working root on
every exit path, and map each exception class to its user-visible message. -/
def handleClick (o : Oracles) (tmp : Path) (arxiv_id v1 v2 : String)
    (s0 : St) : Outcome × St :=
  if arxiv_id == "" || v1 == "" || v2 == "" then (.warning, s0)
  else
    let s1 : St := { s0 with events := s0.events ++ [.mkTempDir] }
    let r := runBody o tmp arxiv_id v1 v2 s1
    let s3 : St := { r.2 with fs := cleanup tmp r.2.fs }
    match r.1 with
    | .ok out => (out, s3)
    | .error (.fileNotFound msg) => (.errorMsg msg, s3)
    | .error .calledProcess =>
      (.errorMsg "latexdiff failed to run. Check the file structures.", s3)
    | .error (.other msg) => (.errorMsg ("An unexpected error occurred: " ++ msg), s3)

/-- An `Except` result that did not raise. -/
def isExceptOk : Except Err Outcome → Bool
  | .ok _ => true
  | .error _ => false

/-- The outcome that serves a rendered PDF. -/
def isPdfOutcome : Except Err Outcome → Bool
  | .ok (.pdf _ _) => true
  | _ => false

deriving instance DecidableEq for Except

/-- A concrete oracle world used by witnesses: the fetch succeeds, the
bytes are not a valid archive (single-file fallback), every directory walk
finds a matching `main.tex`, both tools exit 0 and the build writes
`diff.pdf`. -/
def oW : Oracles :=
  { fetch := fun _ _ => .ok [7]
    tarParse := fun _ => none
    walk := fun d => [⟨d ++ ["main.tex"], some "\\begin{document}"⟩]
    latexdiffExit := 0
    latexdiffOut := [1]
    latexmkExit := 2
    latexmkStdout := "log"
    latexmkFiles := [(["diff.pdf"], [5])]
    zipOf := fun _ => [9] }

/-- Like `oW`, but `latexdiff` exits non-zero. -/
def oDF : Oracles :=
  { fetch := fun _ _ => .ok [7]
    tarParse := fun _ => none
    walk := fun d => [⟨d ++ ["main.tex"], some "\\begin{document}"⟩]
    latexdiffExit := 1
    latexdiffOut := [1]
    latexmkExit := 0
    latexmkStdout := ""
    latexmkFiles := []
    zipOf := fun _ => [9] }

/-- A world where the fetched bytes are a valid tar archive containing a
single member `main.pdf` and no `.tex` file at all. -/
def oC3 : Oracles :=
  { fetch := fun _ _ => .ok [1, 2, 3]
    tarParse := fun _ => some [(["main.pdf"], [9])]
    walk := fun _ => []
    latexdiffExit := 0
    latexdiffOut := []
    latexmkExit := 0
    latexmkStdout := ""
    latexmkFiles := []
    zipOf := fun _ => [] }

lemma isPrefixOf_append_self (t r : Path) : t.isPrefixOf (t ++ r) = true := by
  induction t with
  | nil => simp
  | cons a t ih => simp [List.isPrefixOf, ih]

lemma isPrefixOf_append_extend {t p : Path} (r : Path) (h : t.isPrefixOf p = true) :
    t.isPrefixOf (p ++ r) = true := by
  induction t generalizing p with
  | nil => simp
  | cons a t ih =>
    cases p with
    | nil => simp [List.isPrefixOf] at h
    | cons b p =>
      simp only [List.isPrefixOf, Bool.and_eq_true] at h
      simp [List.cons_append, List.isPrefixOf, h.1, ih h.2]

lemma isUnder_append (t r : Path) : isUnder t (t ++ r) = true :=
  isPrefixOf_append_self t r

lemma isUnder_extend {t p : Path} (r : Path) (h : isUnder t p = true) :
    isUnder t (p ++ r) = true :=
  isPrefixOf_append_extend r h

lemma cleanup_cons (tmp : Path) (q : Path × Bytes) (fs : FS) :
    cleanup tmp (q :: fs) =
      if isUnder tmp q.1 then cleanup tmp fs else q :: cleanup tmp fs := by
  by_cases h : isUnder tmp q.1 <;> simp [cleanup, List.filter_cons, h]

lemma cleanup_writeFile {tmp p : Path} (h : isUnder tmp p = true) (fs : FS) (b : Bytes) :
    cleanup tmp (writeFile fs p b) = cleanup tmp fs := by
  simp [writeFile, cleanup_cons, h]

lemma cleanup_filter {tmp : Path} {g : Path × Bytes → Bool}
    (h : ∀ q, g q = false → isUnder tmp q.1 = true) (fs : FS) :
    cleanup tmp (fs.filter g) = cleanup tmp fs := by
  induction fs with
  | nil => rfl
  | cons q fs ih =>
    rw [List.filter_cons]
    by_cases hg : g q
    · rw [if_pos hg, cleanup_cons, cleanup_cons, ih]
    · rw [if_neg hg, cleanup_cons, ih, if_pos (h q (by simpa using hg))]

lemma cleanup_removeFile {tmp p : Path} (h : isUnder tmp p = true) (fs : FS) :
    cleanup tmp (removeFile fs p) = cleanup tmp fs := by
  refine cleanup_filter (fun q hq => ?_) fs
  have : q.1 = p := by simpa [bne] using hq
  rw [this]; exact h

lemma extractAll_cons (fs : FS) (dir : Path) (m : Path × Bytes) (ms : List (Path × Bytes)) :
    extractAll fs dir (m :: ms) = extractAll (writeFile fs (dir ++ m.1) m.2) dir ms := rfl

lemma cleanup_extractAll {tmp dir : Path} (h : isUnder tmp dir = true)
    (fs : FS) (ms : List (Path × Bytes)) :
    cleanup tmp (extractAll fs dir ms) = cleanup tmp fs := by
  induction ms generalizing fs with
  | nil => rfl
  | cons m ms ih =>
    rw [extractAll_cons, ih, cleanup_writeFile (isUnder_extend m.1 h)]

lemma zipPathOf_append (t : Path) (c : String) :
    zipPathOf (t ++ [c]) = t ++ [c ++ ".zip"] := by
  induction t with
  | nil => rfl
  | cons a t ih =>
    cases t with
    | nil => rfl
    | cons b t' => simpa [zipPathOf] using ih

lemma download_ok {o : Oracles} {arxiv_id v : String} {b : Bytes}
    (tmp : Path) (s : St) (h : o.fetch arxiv_id v = .ok b) :
    ∃ fs', download_and_extract o arxiv_id v tmp s =
      (.ok (tmp ++ ["v" ++ v]), ⟨fs', s.events ++ [.fetch arxiv_id v]⟩) := by
  simp only [download_and_extract, h]
  cases ht : o.tarParse b
  · exact ⟨_, rfl⟩
  · exact ⟨_, rfl⟩

lemma download_dir {o : Oracles} {arxiv_id v : String} {tmp : Path} {s : St}
    {r : Path} {t : St} (h : download_and_extract o arxiv_id v tmp s = (.ok r, t)) :
    r = tmp ++ ["v" ++ v] := by
  rcases hf : o.fetch arxiv_id v with msg | b
  · simp only [download_and_extract, hf] at h
    exact absurd (congrArg (fun x => x.1) h) (by simp)
  · simp only [download_and_extract, hf] at h
    cases ht : o.tarParse b <;> rw [ht] at h <;>
      simpa using (congrArg (fun x => x.1) h).symm

lemma download_cleanup (o : Oracles) (arxiv_id v : String) (tmp : Path) (s : St) :
    cleanup tmp (download_and_extract o arxiv_id v tmp s).2.fs = cleanup tmp s.fs := by
  rcases hf : o.fetch arxiv_id v with msg | b
  · simp only [download_and_extract, hf]
  · have harch : isUnder tmp (tmp ++ ["v" ++ v ++ ".tar.gz"]) = true :=
      isUnder_append tmp _
    have hdir : isUnder tmp (tmp ++ ["v" ++ v]) = true := isUnder_append tmp _
    simp only [download_and_extract, hf]
    cases ht : o.tarParse b
    · dsimp only
      rw [cleanup_writeFile (by simpa using isUnder_append tmp ["v" ++ v, "main.tex"]),
        cleanup_removeFile harch, cleanup_writeFile harch]
    · dsimp only
      rw [cleanup_removeFile harch, cleanup_extractAll hdir, cleanup_writeFile harch]

/-- Claim C5: when no file in the traversal contains the document-start
marker, `find_main_tex` fails with the "not found" error (it never returns
silently), and a file whose `open` raises is skipped without affecting the
result. -/
theorem locator_fails_when_no_match_and_skips_open_errors :
    ∀ (d : String) (es : List WalkEntry) (e : WalkEntry),
      ((∀ x ∈ es, entryMatches x = false) → find_main_tex d es = .error (notFoundMsg d)) ∧
      (e.read = none → find_main_tex d (e :: es) = find_main_tex d es) := by
  intro d es e
  constructor
  · intro h
    induction es with
    | nil => rfl
    | cons q es ih =>
      have hq := h q (List.mem_cons_self q es)
      have hrest : ∀ x ∈ es, entryMatches x = false := fun x hx =>
        h x (List.mem_cons_of_mem q hx)
      by_cases h1 : isTexPath q.path
      · cases hr : q.read with
        | some c =>
          have hm : containsMarker c = false := by
            simpa [entryMatches, h1, hr] using hq
          simp only [find_main_tex, h1, hr, hm, if_true, Bool.false_eq_true, if_false]
          exact ih hrest
        | none =>
          simp only [find_main_tex, h1, hr, if_true]
          exact ih hrest
      · simp only [find_main_tex, h1, Bool.false_eq_true, if_false]
        exact ih hrest
  · intro hr
    by_cases h1 : isTexPath e.path <;>
      simp [find_main_tex, h1, hr]

/-- Witness for C5, at a concrete directory listing. -/
theorem locator_fails_when_no_match_and_skips_open_errors_witness :
    find_main_tex "dir" [] = .error (notFoundMsg "dir") ∧
    find_main_tex "dir" [⟨["a.tex"], none⟩] = find_main_tex "dir" [] :=
  ⟨(locator_fails_when_no_match_and_skips_open_errors "dir" [] ⟨["a.tex"], none⟩).1
      (by intro x hx; simp at hx),
   (locator_fails_when_no_match_and_skips_open_errors "dir" [] ⟨["a.tex"], none⟩).2 rfl⟩

/-- Claim C8: the locator is a deterministic function of the (unmodified)
traversal listing — re-running it yields the same result — and it returns
exactly the first entry of the listing that is a `.tex` file which opens
and contains the marker. -/
theorem locator_idempotent_first_match (d : String) (es : List WalkEntry) :
    find_main_tex d es = find_main_tex d es ∧
    find_main_tex d es =
      (es.find? entryMatches).elim (.error (notFoundMsg d)) (fun e => .ok e.path) := by
  refine ⟨rfl, ?_⟩
  induction es with
  | nil => rfl
  | cons q es ih =>
    by_cases h1 : isTexPath q.path
    · cases hr : q.read with
      | some c =>
        by_cases hm : containsMarker c
        · have hq : entryMatches q = true := by simp [entryMatches, h1, hr, hm]
          simp [find_main_tex, h1, hr, hm, List.find?_cons_of_pos _ hq]
        · have hq : ¬(entryMatches q = true) := by simp [entryMatches, h1, hr, hm]
          simp only [find_main_tex, h1, hr, hm, if_true, Bool.false_eq_true, if_false,
            List.find?_cons_of_neg _ hq]
          exact ih
      | none =>
        have hq : ¬(entryMatches q = true) := by simp [entryMatches, h1, hr]
        simp only [find_main_tex, h1, hr, if_true, List.find?_cons_of_neg _ hq]
        exact ih
    · have hq : ¬(entryMatches q = true) := by simp [entryMatches, h1]
      simp only [find_main_tex, h1, Bool.false_eq_true, if_false,
        List.find?_cons_of_neg _ hq]
      exact ih

/-- Claim C1: the Renderer/Presenter never raises; it reports success
exactly when `diff.pdf` exists in the new revision directory after the
build tool's files have landed; and the build tool's exit code and log
have no influence on that classification. -/
theorem renderer_success_iff_output_exists :
    ∀ (o : Oracles) (arxiv_id v1 v2 : String) (d : Path) (s : St) (e : Nat) (l : String),
      isExceptOk (renderAndPresent o arxiv_id v1 v2 d s).1 = true ∧
      isPdfOutcome (renderAndPresent o arxiv_id v1 v2 d s).1 =
        pathExists (extractAll s.fs d o.latexmkFiles) (d ++ ["diff.pdf"]) ∧
      isPdfOutcome
          (renderAndPresent { o with latexmkExit := e, latexmkStdout := l }
            arxiv_id v1 v2 d s).1 =
        isPdfOutcome (renderAndPresent o arxiv_id v1 v2 d s).1 := by
  intro o arxiv_id v1 v2 d s e l
  refine ⟨?_, ?_, ?_⟩ <;>
    · simp only [renderAndPresent]
      by_cases h : pathExists (extractAll s.fs d o.latexmkFiles) (d ++ ["diff.pdf"]) <;>
        simp [h, isExceptOk, isPdfOutcome]

/-- Claim C2: when the build tool produced `diff.pdf`, the Presenter
serves exactly that file's stored bytes, under a name built
deterministically from the identifier and the two revisions. -/
theorem presenter_serves_exact_bytes :
    ∀ (o : Oracles) (arxiv_id v1 v2 : String) (d : Path) (s : St) (b : Bytes),
      readFile (extractAll s.fs d o.latexmkFiles) (d ++ ["diff.pdf"]) = some b →
      (renderAndPresent o arxiv_id v1 v2 d s).1 =
        .ok (.pdf b (arxiv_id ++ "_v" ++ v1 ++ "_to_v" ++ v2 ++ "_diff.pdf")) := by
  intro o arxiv_id v1 v2 d s b h
  have hex : pathExists (extractAll s.fs d o.latexmkFiles) (d ++ ["diff.pdf"]) = true := by
    simp [pathExists, h]
  simp only [renderAndPresent, hex, if_true]
  simp [h]

/-- Witness for C2, on a concrete build that writes `diff.pdf` = `[5]`. -/
theorem presenter_serves_exact_bytes_witness :
    readFile (extractAll (⟨[], []⟩ : St).fs ["t", "v2"] oW.latexmkFiles)
        (["t", "v2"] ++ ["diff.pdf"]) = some [5] ∧
    (renderAndPresent oW "a" "1" "2" ["t", "v2"] ⟨[], []⟩).1 =
      .ok (.pdf [5] ("a" ++ "_v" ++ "1" ++ "_to_v" ++ "2" ++ "_diff.pdf")) :=
  ⟨by decide, presenter_serves_exact_bytes oW "a" "1" "2" ["t", "v2"] ⟨[], []⟩ [5] (by decide)⟩

/-- Claim C9: when any of the three inputs is empty, the click handler
only warns: no temp directory, no fetch, no state change at all. -/
theorem empty_input_short_circuits :
    ∀ (o : Oracles) (tmp : Path) (arxiv_id v1 v2 : String) (s0 : St),
      arxiv_id = "" ∨ v1 = "" ∨ v2 = "" →
      handleClick o tmp arxiv_id v1 v2 s0 = (.warning, s0) := by
  intro o tmp arxiv_id v1 v2 s0 h
  rcases h with h | h | h <;> subst h <;> simp [handleClick]

/-- Witness for C9. -/
theorem empty_input_short_circuits_witness :
    handleClick oW ["t"] "" "1" "2" ⟨[], []⟩ = (.warning, ⟨[], []⟩) :=
  empty_input_short_circuits oW ["t"] "" "1" "2" ⟨[], []⟩ (Or.inl rfl)

/-- Claim C10: a successful materialization always lands in the
subdirectory `v<revision>` of the working root, whatever the identifier,
oracle behaviour or prior state (hence whatever role the revision plays);
two materializations of the same revision string share one directory. -/
theorem revision_dir_from_revision_only :
    ∀ (o o' : Oracles) (id1 id2 v : String) (tmp : Path) (s s' : St)
      (r r' : Path) (t t' : St),
      download_and_extract o id1 v tmp s = (.ok r, t) →
      download_and_extract o' id2 v tmp s' = (.ok r', t') →
      r = tmp ++ ["v" ++ v] ∧ r' = r := by
  intro o o' id1 id2 v tmp s s' r r' t t' h1 h2
  have e1 := download_dir h1
  have e2 := download_dir h2
  exact ⟨e1, e2.trans e1.symm⟩

/-- Witness for C10: the same revision "7" fetched under two different
identifiers, worlds and states ends in the same directory `t/v7`. -/
theorem revision_dir_from_revision_only_witness :
    ["t", "v7"] = ["t"] ++ ["v" ++ "7"] ∧ ["t", "v7"] = ["t", "v7"] :=
  revision_dir_from_revision_only oW oDF "a" "b" "7" ["t"] ⟨[], []⟩ ⟨[], [.mkTempDir]⟩
    ["t", "v7"] ["t", "v7"]
    ⟨[(["t", "v7", "main.tex"], [7])], [.fetch "a" "7"]⟩
    ⟨[(["t", "v7", "main.tex"], [7])], [.mkTempDir, .fetch "b" "7"]⟩
    (by decide) (by decide)

/-- Counterexample to C3 as stated: a fetched byte stream that is a valid
tar archive whose only member is `main.pdf` completes the Materializer
successfully, yet the revision directory contains no `.tex` file (it is
not empty — it holds exactly `main.pdf`). -/
theorem materializer_tex_invariant_cex :
    download_and_extract oC3 "1234.5" "1" [] ⟨[], []⟩ =
      (.ok ["v1"], ⟨[(["v1", "main.pdf"], [9])], [.fetch "1234.5" "1"]⟩) ∧
    texFilesUnder [(["v1", "main.pdf"], [9])] ["v1"] = [] ∧
    filesUnder [(["v1", "main.pdf"], [9])] ["v1"] ≠ [] := by decide

/-- Claim C3 (amended): when the Materializer completes through the
single-file fallback branch, the revision directory contains a file with
the source extension, namely `main.tex`; the successful-extraction branch
gives no such guarantee. -/
theorem materializer_fallback_yields_tex :
    ∀ (o : Oracles) (arxiv_id v : String) (tmp : Path) (s : St) (b : Bytes),
      o.fetch arxiv_id v = .ok b → o.tarParse b = none →
      ∃ t : St, download_and_extract o arxiv_id v tmp s = (.ok (tmp ++ ["v" ++ v]), t) ∧
        pathExists t.fs (tmp ++ ["v" ++ v] ++ ["main.tex"]) = true ∧
        isTexPath (tmp ++ ["v" ++ v] ++ ["main.tex"]) = true := by
  intro o arxiv_id v tmp s b hf ht
  simp only [download_and_extract, hf, ht]
  refine ⟨_, rfl, ?_, ?_⟩
  · simp [pathExists, readFile, writeFile]
  · simp only [isTexPath, fileName]
    rw [List.getLastD_concat]
    decide

/-- Witness for the amended C3. -/
theorem materializer_fallback_yields_tex_witness :
    ∃ t : St, download_and_extract oW "a" "1" ["t"] ⟨[], []⟩ = (.ok (["t"] ++ ["v" ++ "1"]), t) ∧
      pathExists t.fs (["t"] ++ ["v" ++ "1"] ++ ["main.tex"]) = true ∧
      isTexPath (["t"] ++ ["v" ++ "1"] ++ ["main.tex"]) = true :=
  materializer_fallback_yields_tex oW "a" "1" ["t"] ⟨[], []⟩ [7] (by decide) (by decide)

lemma filesUnder_filter_nil {fs : FS} {d : Path} (h : filesUnder fs d = [])
    (g : Path × Bytes → Bool) : filesUnder (fs.filter g) d = [] := by
  induction fs with
  | nil => rfl
  | cons q fs ih =>
    simp only [filesUnder, List.filter_cons] at h ⊢
    by_cases hu : isUnder d q.1
    · rw [if_pos hu] at h
      exact absurd h (by simp)
    · rw [if_neg hu] at h
      by_cases hg : g q
      · rw [if_pos hg, List.filter_cons, if_neg hu]
        exact ih h
      · rw [if_neg hg]
        exact ih h

/-- Claim C4: on a byte stream that fails archive detection, the
Materializer places exactly one file — the whole byte stream at the fixed
name `main.tex` — into the (initially empty) revision directory, and
completes normally rather than raising. -/
theorem materializer_fallback_single_file :
    ∀ (o : Oracles) (arxiv_id v : String) (tmp : Path) (s : St) (b : Bytes),
      o.fetch arxiv_id v = .ok b → o.tarParse b = none →
      filesUnder s.fs (tmp ++ ["v" ++ v]) = [] →
      ∃ t : St, download_and_extract o arxiv_id v tmp s = (.ok (tmp ++ ["v" ++ v]), t) ∧
        filesUnder t.fs (tmp ++ ["v" ++ v]) = [(tmp ++ ["v" ++ v] ++ ["main.tex"], b)] := by
  intro o arxiv_id v tmp s b hf ht hfresh
  simp only [download_and_extract, hf, ht]
  refine ⟨_, rfl, ?_⟩
  have hmain : isUnder (tmp ++ ["v" ++ v]) (tmp ++ ["v" ++ v] ++ ["main.tex"]) = true :=
    isUnder_append _ _
  simp only [writeFile, removeFile, List.filter_cons, bne_self_eq_false,
    Bool.false_eq_true, if_false]
  simp only [filesUnder, List.filter_cons, hmain, if_true]
  have := filesUnder_filter_nil hfresh (fun q => q.1 != tmp ++ ["v" ++ v ++ ".tar.gz"])
  simpa [filesUnder] using this

lemma renderAndPresent_cleanup (o : Oracles) (arxiv_id v1 v2 : String) (tmp : Path)
    (c : String) (s : St) :
    cleanup tmp (renderAndPresent o arxiv_id v1 v2 (tmp ++ [c]) s).2.fs = cleanup tmp s.fs := by
  have hdir : isUnder tmp (tmp ++ [c]) = true := isUnder_append tmp [c]
  have hz : isUnder tmp (zipPathOf (tmp ++ [c])) = true := by
    rw [zipPathOf_append]
    exact isUnder_append tmp [c ++ ".zip"]
  simp only [renderAndPresent]
  by_cases h : pathExists (extractAll s.fs (tmp ++ [c]) o.latexmkFiles)
      ((tmp ++ [c]) ++ ["diff.pdf"]) = true
  · rw [if_pos h]
    exact cleanup_extractAll hdir s.fs o.latexmkFiles
  · rw [if_neg h]
    dsimp only
    rw [cleanup_writeFile hz, cleanup_extractAll hdir]

lemma runBody_cleanup (o : Oracles) (tmp : Path) (arxiv_id v1 v2 : String) (s : St) :
    cleanup tmp (runBody o tmp arxiv_id v1 v2 s).2.fs = cleanup tmp s.fs := by
  rcases h1 : download_and_extract o arxiv_id v1 tmp s with ⟨r1, t1⟩
  have c1 : cleanup tmp t1.fs = cleanup tmp s.fs := by
    have h := download_cleanup o arxiv_id v1 tmp s
    rw [h1] at h; exact h
  simp only [runBody, h1]
  cases r1 with
  | error e => exact c1
  | ok d1 =>
    dsimp only
    rcases h2 : download_and_extract o arxiv_id v2 tmp t1 with ⟨r2, t2⟩
    have c2 : cleanup tmp t2.fs = cleanup tmp s.fs := by
      have h := download_cleanup o arxiv_id v2 tmp t1
      rw [h2] at h; rw [h, c1]
    cases r2 with
    | error e => exact c2
    | ok d2 =>
      dsimp only
      rcases hm1 : find_main_tex (pathString d1) (o.walk d1) with m1 | p1
      · exact c2
      · rcases hm2 : find_main_tex (pathString d2) (o.walk d2) with m2 | p2
        · exact c2
        · dsimp only
          have hd2 := download_dir h2
          subst hd2
          have hdiff : isUnder tmp ((tmp ++ ["v" ++ v2]) ++ ["diff.tex"]) = true :=
            isUnder_extend ["diff.tex"] (isUnder_append tmp ["v" ++ v2])
          by_cases hx : (o.latexdiffExit == 0) = true
          · rw [if_pos hx]
            exact (renderAndPresent_cleanup o arxiv_id v1 v2 tmp ("v" ++ v2) _).trans
              ((cleanup_writeFile hdiff t2.fs o.latexdiffOut).trans c2)
          · rw [if_neg hx]
            dsimp only
            exact (cleanup_writeFile hdiff t2.fs o.latexdiffOut).trans c2

lemma runBody_diff_fail {o : Oracles} {tmp : Path} {arxiv_id v1 v2 : String}
    {b1 b2 : Bytes} {p1 p2 : Path}
    (hf1 : o.fetch arxiv_id v1 = .ok b1) (hf2 : o.fetch arxiv_id v2 = .ok b2)
    (hl1 : find_main_tex (pathString (tmp ++ ["v" ++ v1]))
      (o.walk (tmp ++ ["v" ++ v1])) = .ok p1)
    (hl2 : find_main_tex (pathString (tmp ++ ["v" ++ v2]))
      (o.walk (tmp ++ ["v" ++ v2])) = .ok p2)
    (hd : o.latexdiffExit ≠ 0) (s : St) :
    ∃ fsx : FS, runBody o tmp arxiv_id v1 v2 s =
      (.error .calledProcess,
        ⟨fsx, ((s.events ++ [.fetch arxiv_id v1]) ++ [.fetch arxiv_id v2])
          ++ [.invokeLatexdiff]⟩) := by
  obtain ⟨fs1, h1⟩ := download_ok (o := o) tmp s hf1
  obtain ⟨fs2, h2⟩ :=
    download_ok (o := o) tmp (⟨fs1, s.events ++ [.fetch arxiv_id v1]⟩ : St) hf2
  have hx : (o.latexdiffExit == 0) ≠ true := by simpa using hd
  simp only [runBody, h1, h2, hl1, hl2]
  rw [if_neg hx]
  exact ⟨_, rfl⟩

/-- Witness for C4. -/
theorem materializer_fallback_single_file_witness :
    ∃ t : St, download_and_extract oW "a" "1" ["t"] ⟨[], []⟩ = (.ok (["t"] ++ ["v" ++ "1"]), t) ∧
      filesUnder t.fs (["t"] ++ ["v" ++ "1"]) = [(["t"] ++ ["v" ++ "1"] ++ ["main.tex"], [7])] :=
  materializer_fallback_single_file oW "a" "1" ["t"] ⟨[], []⟩ [7]
    (by decide) (by decide) (by decide)

/-- Claim C6: when `latexdiff` exits non-zero (after both downloads and
both locates succeed), the pipeline surfaces the latexdiff error message,
never invokes the build tool, and produces no partial result — the
latexdiff invocation itself did happen. -/
theorem diff_tool_failure_halts :
    ∀ (o : Oracles) (tmp : Path) (arxiv_id v1 v2 : String) (fs0 : FS)
      (b1 b2 : Bytes) (p1 p2 : Path),
      arxiv_id ≠ "" → v1 ≠ "" → v2 ≠ "" →
      o.fetch arxiv_id v1 = .ok b1 → o.fetch arxiv_id v2 = .ok b2 →
      find_main_tex (pathString (tmp ++ ["v" ++ v1]))
        (o.walk (tmp ++ ["v" ++ v1])) = .ok p1 →
      find_main_tex (pathString (tmp ++ ["v" ++ v2]))
        (o.walk (tmp ++ ["v" ++ v2])) = .ok p2 →
      o.latexdiffExit ≠ 0 →
      (handleClick o tmp arxiv_id v1 v2 ⟨fs0, []⟩).1 =
        .errorMsg "latexdiff failed to run. Check the file structures." ∧
      Event.invokeLatexmk ∉ (handleClick o tmp arxiv_id v1 v2 ⟨fs0, []⟩).2.events ∧
      Event.invokeLatexdiff ∈ (handleClick o tmp arxiv_id v1 v2 ⟨fs0, []⟩).2.events := by
  intro o tmp arxiv_id v1 v2 fs0 b1 b2 p1 p2 hn1 hn2 hn3 hf1 hf2 hl1 hl2 hd
  have g1 : (arxiv_id == "") = false := by simp [hn1]
  have g2 : (v1 == "") = false := by simp [hn2]
  have g3 : (v2 == "") = false := by simp [hn3]
  obtain ⟨fsx, hrb⟩ := runBody_diff_fail hf1 hf2 hl1 hl2 hd (⟨fs0, [Event.mkTempDir]⟩ : St)
  simp only [handleClick, g1, g2, g3, Bool.or_self, Bool.or_false, Bool.false_or,
    Bool.false_eq_true, if_false, List.nil_append]
  rw [hrb]
  refine ⟨rfl, ?_, ?_⟩ <;> simp

/-- Witness for C6, in a concrete world where `latexdiff` exits 1. -/
theorem diff_tool_failure_halts_witness :
    (handleClick oDF ["t"] "a" "1" "2" ⟨[], []⟩).1 =
      .errorMsg "latexdiff failed to run. Check the file structures." ∧
    Event.invokeLatexmk ∉ (handleClick oDF ["t"] "a" "1" "2" ⟨[], []⟩).2.events ∧
    Event.invokeLatexdiff ∈ (handleClick oDF ["t"] "a" "1" "2" ⟨[], []⟩).2.events :=
  diff_tool_failure_halts oDF ["t"] "a" "1" "2" [] [7] [7]
    ["t", "v1", "main.tex"] ["t", "v2", "main.tex"]
    (by decide) (by decide) (by decide) (by decide) (by decide)
    (by decide) (by decide) (by decide)

/-- Claim C7: whenever the pipeline actually runs (inputs non-empty), every
exit path — success, fallback or any raised error — removes the working
root: the final filesystem is the initial one scrubbed of everything under
`tmp`, so nothing created during the request survives it. -/
theorem working_root_always_removed :
    ∀ (o : Oracles) (tmp : Path) (arxiv_id v1 v2 : String) (s0 : St),
      arxiv_id ≠ "" → v1 ≠ "" → v2 ≠ "" →
      (handleClick o tmp arxiv_id v1 v2 s0).2.fs = cleanup tmp s0.fs ∧
      ∀ q ∈ (handleClick o tmp arxiv_id v1 v2 s0).2.fs, isUnder tmp q.1 = false := by
  intro o tmp arxiv_id v1 v2 s0 hn1 hn2 hn3
  have g1 : (arxiv_id == "") = false := by simp [hn1]
  have g2 : (v1 == "") = false := by simp [hn2]
  have g3 : (v2 == "") = false := by simp [hn3]
  have key : (handleClick o tmp arxiv_id v1 v2 s0).2.fs = cleanup tmp s0.fs := by
    simp only [handleClick, g1, g2, g3, Bool.or_self, Bool.or_false, Bool.false_or,
      Bool.false_eq_true, if_false]
    have hcl := runBody_cleanup o tmp arxiv_id v1 v2
      ({ s0 with events := s0.events ++ [Event.mkTempDir] } : St)
    rcases hr : runBody o tmp arxiv_id v1 v2
        ({ s0 with events := s0.events ++ [Event.mkTempDir] } : St) with ⟨r, s2⟩
    rw [hr] at hcl
    cases r with
    | error e => cases e <;> exact hcl
    | ok out => exact hcl
  refine ⟨key, ?_⟩
  intro q hq
  rw [key] at hq
  simp only [cleanup, List.mem_filter, Bool.not_eq_true'] at hq
  exact hq.2

/-- Witness for C7. -/
theorem working_root_always_removed_witness :
    (handleClick oW ["t"] "a" "1" "2" ⟨[], []⟩).2.fs = cleanup ["t"] (St.mk [] []).fs ∧
    ∀ q ∈ (handleClick oW ["t"] "a" "1" "2" ⟨[], []⟩).2.fs, isUnder ["t"] q.1 = false :=
  working_root_always_removed oW ["t"] "a" "1" "2" ⟨[], []⟩
    (by decide) (by decide) (by decide)

end VibeArxivDiff
